import Mathlib

/-!
Verification of the `sessionup` session manager (`manager.go`).

Time is modelled as `Int` in nanoseconds, with the Go zero time `time.Time{}`
mapped to `0` and `t.After u` mapped to `t > u`.  Effectful operations are
embedded as pure functions that take a `Store` record (the responses the
external store gives to each call) and return, besides their result, the
explicit list of side effects (store calls and cookie writes) they perform,
in order.
-/

namespace Sessionup

/-- Nanoseconds per hour (Go `time.Hour`). -/
def nsPerHour : Int := 3600 * 1000000000

/-- Modelled from the spec: the `Session` entity of §3; `session.go` defining
the `Session` struct is not under `src/`.  `current` is the transient
`Current` annotation. -/
structure Session where
  createdAt : Int
  expiresAt : Int
  id : String
  userKey : String
  ip : String
  agent : String
  current : Bool
  deriving Repr, DecidableEq

/-- Modelled from the spec: the zero value of the `Session` struct, produced by
Go's `var s Session` / a failed `FromContext` lookup. -/
def Session.zero : Session :=
  { createdAt := 0, expiresAt := 0, id := "", userKey := "", ip := "",
    agent := "", current := false }

/-- Modelled from the spec: the Context Binder of §4.5 (`newContext` /
`FromContext` in `session.go`, not under `src/`).  A request context either
carries a bound session or does not; other context values are irrelevant to
the manager. -/
def Context : Type := Option Session

instance : DecidableEq Context :=
  inferInstanceAs (DecidableEq (Option Session))

/-- Modelled from the spec: `newContext(ctx, s)` attaches the session to the
context (§4.5). -/
def newContext (_ctx : Context) (s : Session) : Context := some s

/-- Modelled from the spec: `FromContext(ctx)` retrieves the bound session and
a found flag; when none is bound it yields the zero `Session` and `false`
(Go's two-valued type assertion). -/
def FromContext : Context → Session × Bool
  | none => (Session.zero, false)
  | some s => (s, true)

/-- The cookie value written by `setCookie` (`http.Cookie` fields set in
`manager.go`). -/
structure Cookie where
  name : String
  value : String
  path : String
  domain : String
  expires : Int
  secure : Bool
  httpOnly : Bool
  sameSite : Nat
  deriving Repr, DecidableEq

/-- An incoming HTTP request, restricted to what `manager.go` reads from it:
its cookies (name/value pairs, in order), the extracted IP and User-Agent,
and its processing context. -/
structure Request where
  cookies : List (String × String)
  ip : String
  agent : String
  context : Context

/-- Go `r.Cookie(name)`: the value of the first cookie with the given name,
or `none` (`http.ErrNoCookie`) when absent. -/
def Request.cookieValue (r : Request) (name : String) : Option String :=
  (r.cookies.find? (fun p => p.fst == name)).map Prod.snd

/-- The cookie configuration held by `Manager.cookie`. -/
structure CookieConfig where
  name : String
  domain : String
  path : String
  secure : Bool
  httpOnly : Bool
  sameSite : Nat
  deriving Repr, DecidableEq

/-- The `Manager` configuration (`manager.go`).  `genID` is modelled as the
string the configured ID generator returns; the rejection handler is not a
field here because `Auth`'s outcome is modelled by `AuthResult`. -/
structure Manager where
  cookie : CookieConfig
  expiresIn : Int
  withIP : Bool
  withAgent : Bool
  genID : String

/-- One observable side effect of a manager operation: a store call with its
arguments, or a `Set-Cookie` response write. -/
inductive Effect where
  | storeCreate (s : Session)
  | storeFetchByID (id : String)
  | storeDeleteByID (id : String)
  | storeDeleteByUserKey (key : String) (excl : List String)
  | storeFetchByUserKey (key : String)
  | setCookie (c : Cookie)
  deriving Repr, DecidableEq

/-- The responses the external store gives to each call (§6 interface).
`fetchByID` yields an error, or the found flag with the session;
`fetchByUserKey` yields an error, or `none` for Go's nil slice (the
no-results signal) versus `some` of the listed sessions. -/
structure Store where
  create : Session → Option String
  fetchByID : String → Except String (Option Session)
  deleteByID : String → Option String
  deleteByUserKey : String → List String → Option String
  fetchByUserKey : String → Except String (Option (List Session))

/-- Modelled from the spec: the reference semantics of the store interface of
§6 over a list of sessions (the store implementation is external to the
repository).  `DeleteByUserKey` removes the sessions of the key whose ID is
not among the excluded IDs; `DeleteByID` removes the sessions with the ID. -/
def applyEffect (l : List Session) : Effect → List Session
  | .storeCreate s => l ++ [s]
  | .storeDeleteByID i => l.filter (fun s => s.id ≠ i)
  | .storeDeleteByUserKey key excl =>
      l.filter (fun s => ¬(s.userKey = key ∧ s.id ∉ excl))
  | _ => l

/-- Runs a trace of effects against the reference store state of
`applyEffect`. -/
def runEffects (l : List Session) (es : List Effect) : List Session :=
  es.foldl applyEffect l

/-- Modelled from the spec: the Session Factory (§4.1, `newSession` in
`session.go`, not under `src/`): fresh ID from the generator,
`CreatedAt = now`, `ExpiresAt = now + expiresIn` when a duration is
configured and the zero time otherwise, IP / User-Agent captured only when
the corresponding policy is enabled. -/
def Manager.newSession (m : Manager) (r : Request) (now : Int) (key : String) :
    Session :=
  { createdAt := now,
    expiresAt := if m.expiresIn ≠ 0 then now + m.expiresIn else 0,
    id := m.genID,
    userKey := key,
    ip := if m.withIP then r.ip else "",
    agent := if m.withAgent then r.agent else "",
    current := false }

/-- `Manager.setCookie`: the cookie built from the manager's configuration,
the expiry and the token. -/
def Manager.mkCookie (m : Manager) (exp : Int) (tok : String) : Cookie :=
  { name := m.cookie.name,
    value := tok,
    path := m.cookie.path,
    domain := m.cookie.domain,
    expires := exp,
    secure := m.cookie.secure,
    httpOnly := m.cookie.httpOnly,
    sameSite := m.cookie.sameSite }

/-- `Manager.deleteCookie`: the overriding cookie with empty value and expiry
30 days before `now` (`time.Now().Add(-time.Hour*24*30)`). -/
def Manager.deletionCookie (m : Manager) (now : Int) : Cookie :=
  m.mkCookie (now - 24 * 30 * nsPerHour) ""

/-- `Manager.Init`: build a session, create it in the store when its expiry
is after the zero time, and set the cookie; a store error is returned as is
and stops the cookie write. -/
def Manager.init (m : Manager) (st : Store) (r : Request) (now : Int)
    (key : String) : Except String Unit × List Effect :=
  let s := m.newSession r now key
  if s.expiresAt > 0 then
    match st.create s with
    | some err => (.error err, [.storeCreate s])
    | none =>
        (.ok (), [.storeCreate s, .setCookie (m.mkCookie s.expiresAt s.id)])
  else
    (.ok (), [.setCookie (m.mkCookie s.expiresAt s.id)])

/-- The error passed to the rejection handler by `Auth`. -/
inductive AuthError where
  | cookieMissing
  | storeError (msg : String)
  | unauthorized
  deriving Repr, DecidableEq

/-- The outcome of the `Auth` middleware on one request: the rejection
handler is invoked with an error, or the request, with the session bound to
its context, is forwarded to the next handler. -/
inductive AuthResult where
  | rejected (e : AuthError)
  | forwarded (r : Request)

/-- `Manager.Auth` on one request: extract the configured cookie, resolve the
value through the store, and reject or forward with the session bound. -/
def Manager.auth (m : Manager) (st : Store) (r : Request) :
    AuthResult × List Effect :=
  match r.cookieValue m.cookie.name with
  | none => (.rejected .cookieMissing, [])
  | some v =>
      match st.fetchByID v with
      | .error e => (.rejected (.storeError e), [.storeFetchByID v])
      | .ok none => (.rejected .unauthorized, [.storeFetchByID v])
      | .ok (some s) =>
          (.forwarded { r with context := newContext r.context s },
            [.storeFetchByID v])

/-- `Manager.Revoke`: no bound session is a success no-op; otherwise delete
by the bound ID, propagate a store error, and delete the cookie only after
a successful store deletion. -/
def Manager.revoke (m : Manager) (st : Store) (ctx : Context) (now : Int) :
    Except String Unit × List Effect :=
  let p := FromContext ctx
  if p.snd = false then
    (.ok (), [])
  else
    match st.deleteByID p.fst.id with
    | some err => (.error err, [.storeDeleteByID p.fst.id])
    | none =>
        (.ok (), [.storeDeleteByID p.fst.id,
          .setCookie (m.deletionCookie now)])

/-- `Manager.RevokeOther`: delete by user key, excluding the single ID of
`FromContext`'s session (the zero session's empty ID when none is bound);
the found flag is discarded and no cookie is touched. -/
def Manager.revokeOther (st : Store) (ctx : Context) (key : String) :
    Except String Unit × List Effect :=
  let s := (FromContext ctx).fst
  match st.deleteByUserKey key [s.id] with
  | some err => (.error err, [.storeDeleteByUserKey key [s.id]])
  | none => (.ok (), [.storeDeleteByUserKey key [s.id]])

/-- `Manager.RevokeAll`: delete by user key with no exclusion, propagate a
store error, else delete the cookie.  The bound context is never consulted. -/
def Manager.revokeAll (m : Manager) (st : Store) (_ctx : Context)
    (key : String) (now : Int) : Except String Unit × List Effect :=
  match st.deleteByUserKey key [] with
  | some err => (.error err, [.storeDeleteByUserKey key []])
  | none =>
      (.ok (), [.storeDeleteByUserKey key [],
        .setCookie (m.deletionCookie now)])

/-- The annotation loop of `Manager.FetchAll`: set `Current` on the first
session whose ID equals the bound session's ID, then stop (`break`). -/
def markCurrent : List Session → String → List Session
  | [], _ => []
  | s :: rest, cid =>
      if s.id = cid then { s with current := true } :: rest
      else s :: markCurrent rest cid

/-- `Manager.FetchAll`: fetch by user key; errors and the nil no-results
signal pass through; with a bound session the matching entry is annotated
via `markCurrent`. -/
def Manager.fetchAll (st : Store) (ctx : Context) (key : String) :
    Except String (Option (List Session)) × List Effect :=
  match st.fetchByUserKey key with
  | .error e => (.error e, [.storeFetchByUserKey key])
  | .ok none => (.ok none, [.storeFetchByUserKey key])
  | .ok (some ss) =>
      let p := FromContext ctx
      if p.snd = false then
        (.ok (some ss), [.storeFetchByUserKey key])
      else
        (.ok (some (markCurrent ss p.fst.id)), [.storeFetchByUserKey key])

/-- Whether an effect is a `Set-Cookie` response write. -/
def Effect.isCookieWrite : Effect → Bool
  | .setCookie _ => true
  | _ => false

/-- A concrete session used to exercise the theorems. -/
def sampleSession : Session :=
  { Session.zero with id := "abc", userKey := "u1" }

/-- A concrete session of user key `"u1"` whose ID is the empty string. -/
def emptyIDSession : Session :=
  { Session.zero with id := "", userKey := "u1" }

/-- A concrete well-behaved store: it knows exactly `sampleSession` and
reports success on every mutation. -/
def sampleStore : Store :=
  { create := fun _ => none,
    fetchByID := fun i =>
      if i = "abc" then .ok (some sampleSession) else .ok none,
    deleteByID := fun _ => none,
    deleteByUserKey := fun _ _ => none,
    fetchByUserKey := fun k =>
      if k = "u1" then .ok (some [sampleSession]) else .ok none }

/-- A concrete store whose `Create` fails with `"boom"`. -/
def failingCreateStore : Store :=
  { sampleStore with create := fun _ => some "boom" }

/-- A concrete manager with the default cookie configuration and a one-hour
expiry. -/
def sampleManager : Manager :=
  { cookie :=
      { name := "sessionup", domain := "", path := "/", secure := true,
        httpOnly := true, sameSite := 3 },
    expiresIn := nsPerHour,
    withIP := true,
    withAgent := true,
    genID := "freshid" }

/-- A concrete request carrying the session cookie for `sampleSession`. -/
def sampleRequest : Request :=
  { cookies := [("sessionup", "abc")], ip := "1.2.3.4", agent := "ua",
    context := none }

/-- A concrete request with no cookies at all. -/
def bareRequest : Request :=
  { cookies := [], ip := "1.2.3.4", agent := "ua", context := none }

/-- C1: when the configured cookie is present and the store resolves its value
to an existing session, `Auth` forwards exactly once to the next handler, the
forwarded request's context carries exactly the session returned by
`FetchByID`, and the rejection handler is not invoked (the outcome is
`forwarded`, not `rejected`). -/
theorem auth_valid_session_forwards (m : Manager) (st : Store) (r : Request)
    (v : String) (s : Session)
    (hc : r.cookieValue m.cookie.name = some v)
    (hf : st.fetchByID v = .ok (some s)) :
    m.auth st r =
      (.forwarded { r with context := some s }, [.storeFetchByID v]) := by
  simp only [Manager.auth, hc, hf, newContext]

/-- Witness for C1 at the sample manager, store and request. -/
theorem auth_valid_session_forwards_witness :
    sampleRequest.cookieValue sampleManager.cookie.name = some "abc" ∧
    sampleStore.fetchByID "abc" = .ok (some sampleSession) ∧
    sampleManager.auth sampleStore sampleRequest =
      (.forwarded { sampleRequest with context := some sampleSession },
        [.storeFetchByID "abc"]) :=
  ⟨rfl, rfl,
    auth_valid_session_forwards sampleManager sampleStore sampleRequest
      "abc" sampleSession rfl rfl⟩

/-- C2: when the request does not carry the configured cookie, `Auth` rejects
with the cookie-missing (not-found-class) error, makes no store call at all,
and never invokes the next handler. -/
theorem auth_missing_cookie_rejects (m : Manager) (st : Store) (r : Request)
    (hc : r.cookieValue m.cookie.name = none) :
    m.auth st r = (.rejected .cookieMissing, []) := by
  unfold Manager.auth
  rw [hc]

/-- Witness for C2 at the cookie-less request. -/
theorem auth_missing_cookie_rejects_witness :
    bareRequest.cookieValue sampleManager.cookie.name = none ∧
    sampleManager.auth sampleStore bareRequest =
      (.rejected .cookieMissing, []) :=
  ⟨rfl, auth_missing_cookie_rejects sampleManager sampleStore bareRequest rfl⟩

/-- C10: with no session bound to the context, `RevokeOther` calls
`DeleteByUserKey` with the exclusion list holding exactly one element, the
zero-value session's empty ID, never with an empty exclusion list. -/
theorem revokeOther_unbound_excludes_empty_id (st : Store) (key : String) :
    (Manager.revokeOther st none key).snd =
      [.storeDeleteByUserKey key [""]] := by
  unfold Manager.revokeOther
  simp only [FromContext, Session.zero]
  split <;> rfl

/-- The expiry of a freshly built session is non-zero exactly when it is
positive, given a positive clock and a non-negative configured duration. -/
theorem newSession_expiresAt_ne_zero_iff (m : Manager) (r : Request)
    (now : Int) (key : String) (hnow : 0 < now) (hexp : 0 ≤ m.expiresIn) :
    (m.newSession r now key).expiresAt ≠ 0 ↔
      0 < (m.newSession r now key).expiresAt := by
  by_cases he : m.expiresIn = 0
  · simp [Manager.newSession, he]
  · simp only [Manager.newSession, if_pos he]
    omega

/-- C3: `Init` calls the store's `Create` exactly when the newly built
session's `ExpiresAt` is non-zero (under a positive clock and a non-negative
configured duration, matching Go time where `After(time.Time\x7b\x7d)` and
non-zero coincide); and whenever `Create` returns an error, `Init` returns
that error unmodified and writes no cookie. -/
theorem init_create_iff_nonzero_expiry (m : Manager) (st : Store)
    (r : Request) (now : Int) (key : String)
    (hnow : 0 < now) (hexp : 0 ≤ m.expiresIn) :
    (Effect.storeCreate (m.newSession r now key) ∈ (m.init st r now key).snd ↔
      (m.newSession r now key).expiresAt ≠ 0) ∧
    ∀ err, st.create (m.newSession r now key) = some err →
      (m.newSession r now key).expiresAt ≠ 0 →
      m.init st r now key =
        (.error err, [.storeCreate (m.newSession r now key)]) := by
  have hiff := newSession_expiresAt_ne_zero_iff m r now key hnow hexp
  constructor
  · by_cases h : 0 < (m.newSession r now key).expiresAt
    · have hne : (m.newSession r now key).expiresAt ≠ 0 := hiff.mpr h
      simp only [Manager.init, if_pos h]
      cases hc : st.create (m.newSession r now key) <;> simp [hc, hne]
    · have he0 : (m.newSession r now key).expiresAt = 0 := by
        by_contra hne
        exact h (hiff.mp hne)
      simp [Manager.init, he0]
  · intro err hcreate hne
    have h : 0 < (m.newSession r now key).expiresAt := hiff.mp hne
    simp only [Manager.init, if_pos h, hcreate]

/-- Witness for C3: the sample manager has a one-hour expiry, so the session
is created; with the failing store the error comes back unmodified and the
effect trace holds no cookie write. -/
theorem init_create_iff_nonzero_expiry_witness :
    (0 : Int) < 100 ∧ (0 : Int) ≤ sampleManager.expiresIn ∧
    failingCreateStore.create
      (sampleManager.newSession sampleRequest 100 "u1") = some "boom" ∧
    (sampleManager.newSession sampleRequest 100 "u1").expiresAt ≠ 0 ∧
    sampleManager.init failingCreateStore sampleRequest 100 "u1" =
      (.error "boom",
        [.storeCreate (sampleManager.newSession sampleRequest 100 "u1")]) :=
  ⟨by decide, by decide, rfl, by decide,
    (init_create_iff_nonzero_expiry sampleManager failingCreateStore
        sampleRequest 100 "u1" (by decide) (by decide)).2
      "boom" rfl (by decide)⟩

/-- C4: `Revoke` on a context with no bound session succeeds with no store
call and no cookie write; with a bound session it deletes by that session's
ID, propagates a store error with no cookie write, and deletes the cookie
only after the store deletion succeeds. -/
theorem revoke_spec (m : Manager) (st : Store) (now : Int) :
    m.revoke st none now = (.ok (), []) ∧
    ∀ s : Session,
      (st.deleteByID s.id = none →
        m.revoke st (some s) now =
          (.ok (), [.storeDeleteByID s.id,
            .setCookie (m.deletionCookie now)])) ∧
      ∀ err, st.deleteByID s.id = some err →
        m.revoke st (some s) now = (.error err, [.storeDeleteByID s.id]) := by
  refine ⟨rfl, fun s => ⟨fun h => ?_, fun err h => ?_⟩⟩
  · simp [Manager.revoke, FromContext, h]
  · simp [Manager.revoke, FromContext, h]

/-- Witness for C4 at the sample manager and store, on the unbound context
and on a context binding `sampleSession`. -/
theorem revoke_spec_witness :
    sampleManager.revoke sampleStore none 100 = (.ok (), []) ∧
    sampleStore.deleteByID sampleSession.id = none ∧
    sampleManager.revoke sampleStore (some sampleSession) 100 =
      (.ok (), [.storeDeleteByID sampleSession.id,
        .setCookie (sampleManager.deletionCookie 100)]) :=
  ⟨(revoke_spec sampleManager sampleStore 100).1, rfl,
    ((revoke_spec sampleManager sampleStore 100).2 sampleSession).1 rfl⟩

/-- The effect trace of `RevokeOther` is the single `DeleteByUserKey` call
excluding exactly the `FromContext` session's ID. -/
theorem revokeOther_effects (st : Store) (ctx : Context) (key : String) :
    (Manager.revokeOther st ctx key).snd =
      [.storeDeleteByUserKey key [(FromContext ctx).fst.id]] := by
  simp only [Manager.revokeOther]
  split <;> rfl

/-- C5 counterexample: with no bound session and key `"u1"`, `RevokeOther`
calls `DeleteByUserKey` with the non-empty exclusion list `[""]`, and under
the reference store semantics a stored session of key `"u1"` with ID `""`
survives — so it neither excludes nothing nor deletes all sessions for the
key. -/
theorem revokeOther_unbound_counterexample :
    (Manager.revokeOther sampleStore none "u1").snd =
      [.storeDeleteByUserKey "u1" [""]] ∧
    ([""] ≠ ([] : List String)) ∧
    emptyIDSession.userKey = "u1" ∧
    runEffects [emptyIDSession]
        (Manager.revokeOther sampleStore none "u1").snd =
      [emptyIDSession] := by
  refine ⟨by decide, by decide, by decide, by decide⟩

/-- C5 (amended): for every context and key, `RevokeOther` performs exactly
one store call, `DeleteByUserKey` with the exclusion list holding exactly the
`FromContext` session's ID (the bound session's ID, or the empty string when
none is bound); under the reference store semantics it deletes exactly the
sessions of the key whose ID differs from that excluded ID; and it never
writes or deletes any cookie. -/
theorem revokeOther_spec (st : Store) (ctx : Context) (key : String) :
    (Manager.revokeOther st ctx key).snd =
      [.storeDeleteByUserKey key [(FromContext ctx).fst.id]] ∧
    ((Manager.revokeOther st ctx key).snd.filter Effect.isCookieWrite = []) ∧
    ∀ l : List Session,
      runEffects l (Manager.revokeOther st ctx key).snd =
        l.filter (fun s =>
          ¬(s.userKey = key ∧ s.id ≠ (FromContext ctx).fst.id)) := by
  refine ⟨revokeOther_effects st ctx key, ?_, fun l => ?_⟩
  · rw [revokeOther_effects st ctx key]
    rfl
  · rw [revokeOther_effects st ctx key]
    simp only [runEffects, List.foldl, applyEffect]
    refine List.filter_congr fun a _ => ?_
    refine decide_eq_decide.mpr ?_
    simp [List.mem_singleton]

/-- C6: `RevokeAll` deletes by user key with an empty exclusion list — under
the reference store semantics, all sessions of the key — and, on store
success, deletes the client cookie; the outcome is the same whatever session
is bound to the context. -/
theorem revokeAll_spec (m : Manager) (st : Store) (ctx : Context)
    (key : String) (now : Int)
    (h : st.deleteByUserKey key [] = none) :
    m.revokeAll st ctx key now =
      (.ok (), [.storeDeleteByUserKey key [],
        .setCookie (m.deletionCookie now)]) ∧
    m.revokeAll st ctx key now = m.revokeAll st none key now ∧
    ∀ l : List Session,
      runEffects l (m.revokeAll st ctx key now).snd =
        l.filter (fun s => ¬(s.userKey = key)) := by
  have h1 : m.revokeAll st ctx key now =
      (.ok (), [.storeDeleteByUserKey key [],
        .setCookie (m.deletionCookie now)]) := by
    simp [Manager.revokeAll, h]
  refine ⟨h1, rfl, fun l => ?_⟩
  rw [h1]
  simp only [runEffects, List.foldl, applyEffect]
  refine List.filter_congr fun a _ => ?_
  refine decide_eq_decide.mpr ?_
  simp

/-- Witness for C6 at the sample manager and store, with a session bound. -/
theorem revokeAll_spec_witness :
    sampleStore.deleteByUserKey "u1" [] = none ∧
    sampleManager.revokeAll sampleStore (some sampleSession) "u1" 100 =
      (.ok (), [.storeDeleteByUserKey "u1" [],
        .setCookie (sampleManager.deletionCookie 100)]) :=
  ⟨rfl, (revokeAll_spec sampleManager sampleStore (some sampleSession)
    "u1" 100 rfl).1⟩

/-- C7: when the store lookup yields the empty no-results signal (Go's nil
slice) and no error, `FetchAll` returns nil sessions and nil error, never an
empty container. -/
theorem fetchAll_empty_no_results (st : Store) (ctx : Context) (key : String)
    (h : st.fetchByUserKey key = .ok none) :
    Manager.fetchAll st ctx key = (.ok none, [.storeFetchByUserKey key]) := by
  simp [Manager.fetchAll, h]

/-- Witness for C7 at the sample store on a key with no sessions. -/
theorem fetchAll_empty_no_results_witness :
    sampleStore.fetchByUserKey "nobody" = .ok none ∧
    Manager.fetchAll sampleStore (some sampleSession) "nobody" =
      (.ok none, [.storeFetchByUserKey "nobody"]) :=
  ⟨rfl, fetchAll_empty_no_results sampleStore (some sampleSession)
    "nobody" rfl⟩

/-- `markCurrent` preserves the number of sessions. -/
theorem markCurrent_length (l : List Session) (cid : String) :
    (markCurrent l cid).length = l.length := by
  induction l with
  | nil => rfl
  | cons a rest ih =>
      by_cases h : a.id = cid <;> simp [markCurrent, h, ih]

/-- Positionally, `markCurrent` sets `Current` exactly on the entries whose
ID is the given one, provided the incoming entries all have `Current` false
and IDs are pairwise distinct. -/
theorem markCurrent_getElem (l : List Session) (cid : String)
    (hcur : ∀ s ∈ l, s.current = false)
    (hnd : l.Pairwise fun a b => a.id ≠ b.id) :
    ∀ (j : Nat) (s t : Session), l[j]? = some s →
      (markCurrent l cid)[j]? = some t →
      (t.current = true ↔ s.id = cid) := by
  induction l with
  | nil =>
      intro j s t hs _
      simp at hs
  | cons a rest ih =>
      intro j s t hs ht
      rcases List.pairwise_cons.mp hnd with ⟨hhead, htail⟩
      by_cases h : a.id = cid
      · rw [markCurrent, if_pos h] at ht
        cases j with
        | zero =>
            simp at hs ht
            subst hs
            subst ht
            simp [h]
        | succ n =>
            simp only [List.getElem?_cons_succ] at hs ht
            have hst : s = t := by
              rw [hs] at ht
              exact Option.some.inj ht
            subst hst
            have hsm : s ∈ rest := List.getElem?_mem hs
            have h1 : s.current = false := hcur s (List.mem_cons_of_mem a hsm)
            have h2 : a.id ≠ s.id := hhead s hsm
            constructor
            · intro hc
              rw [h1] at hc
              exact absurd hc (by simp)
            · intro hid
              exact absurd (h.trans hid.symm) h2
      · rw [markCurrent, if_neg h] at ht
        cases j with
        | zero =>
            simp at hs ht
            subst hs
            subst ht
            have h1 : a.current = false := hcur a (List.mem_cons_self a rest)
            simp [h1, h]
        | succ n =>
            simp only [List.getElem?_cons_succ] at hs ht
            exact ih (fun x hx => hcur x (List.mem_cons_of_mem a hx))
              htail n s t hs ht

/-- C8: on a non-empty store result whose entries carry `Current = false`
(the store never persists `Current`) and pairwise distinct IDs, `FetchAll`
with a bound session returns the result annotated so that an entry's
`Current` is true exactly when its ID equals the bound session's ID — so at
most the one matching entry is true and all others false; with no bound
session the result is returned as fetched, all entries false. -/
theorem fetchAll_current_flags (st : Store) (key : String)
    (ss : List Session) (cs : Session)
    (h : st.fetchByUserKey key = .ok (some ss))
    (hcur : ∀ s ∈ ss, s.current = false)
    (hnd : ss.Pairwise fun a b => a.id ≠ b.id) :
    Manager.fetchAll st (some cs) key =
      (.ok (some (markCurrent ss cs.id)), [.storeFetchByUserKey key]) ∧
    (markCurrent ss cs.id).length = ss.length ∧
    (∀ (j : Nat) (s t : Session), ss[j]? = some s →
      (markCurrent ss cs.id)[j]? = some t →
      (t.current = true ↔ s.id = cs.id)) ∧
    Manager.fetchAll st none key =
      (.ok (some ss), [.storeFetchByUserKey key]) ∧
    ∀ s ∈ ss, s.current = false := by
  refine ⟨by simp [Manager.fetchAll, h, FromContext],
    markCurrent_length ss cs.id,
    markCurrent_getElem ss cs.id hcur hnd,
    by simp [Manager.fetchAll, h, FromContext], hcur⟩

/-- Witness for C8 at the sample store: key `"u1"` holds exactly
`sampleSession`, which is also the bound session, and the returned entry is
annotated as current. -/
theorem fetchAll_current_flags_witness :
    sampleStore.fetchByUserKey "u1" = .ok (some [sampleSession]) ∧
    (∀ s ∈ [sampleSession], s.current = false) ∧
    ([sampleSession].Pairwise fun a b => a.id ≠ b.id) ∧
    Manager.fetchAll sampleStore (some sampleSession) "u1" =
      (.ok (some (markCurrent [sampleSession] sampleSession.id)),
        [.storeFetchByUserKey "u1"]) :=
  ⟨rfl, by decide, by simp,
    (fetchAll_current_flags sampleStore "u1" [sampleSession]
      sampleSession rfl (by decide) (by simp)).1⟩

/-- The deletion cookie carries the configured name, an empty value, and an
expiry exactly 30 days before now, hence at least 24 hours in the past. -/
theorem deletionCookie_spec (m : Manager) (now : Int) :
    (m.deletionCookie now).name = m.cookie.name ∧
    (m.deletionCookie now).value = "" ∧
    (m.deletionCookie now).expires = now - 24 * 30 * nsPerHour ∧
    24 * nsPerHour ≤ now - (m.deletionCookie now).expires := by
  refine ⟨rfl, rfl, rfl, ?_⟩
  simp only [Manager.deletionCookie, Manager.mkCookie, nsPerHour]
  omega

/-- C9: every cookie write performed by `Revoke` and by `RevokeAll` is a
deletion cookie: configured name, empty value, and an `Expires` 30 days —
hence at least 24 hours — before now, independent of the session's original
expiry configuration. -/
theorem revocation_cookie_expired (m : Manager) (st : Store) (ctx : Context)
    (key : String) (now : Int) :
    (∀ c : Cookie, Effect.setCookie c ∈ (m.revoke st ctx now).snd →
      c.name = m.cookie.name ∧ c.value = "" ∧
      c.expires = now - 24 * 30 * nsPerHour ∧
      24 * nsPerHour ≤ now - c.expires) ∧
    (∀ c : Cookie, Effect.setCookie c ∈ (m.revokeAll st ctx key now).snd →
      c.name = m.cookie.name ∧ c.value = "" ∧
      c.expires = now - 24 * 30 * nsPerHour ∧
      24 * nsPerHour ≤ now - c.expires) := by
  constructor
  · intro c hc
    cases ctx with
    | none => simp [Manager.revoke, FromContext] at hc
    | some s =>
        cases hd : st.deleteByID s.id with
        | some err => simp [Manager.revoke, FromContext, hd] at hc
        | none =>
            simp [Manager.revoke, FromContext, hd] at hc
            subst hc
            exact deletionCookie_spec m now
  · intro c hc
    cases hd : st.deleteByUserKey key [] with
    | some err => simp [Manager.revokeAll, hd] at hc
    | none =>
        simp [Manager.revokeAll, hd] at hc
        subst hc
        exact deletionCookie_spec m now

/-- Witness for C9: the cookie written by a successful `Revoke` at the
sample manager satisfies the deletion-cookie properties. -/
theorem revocation_cookie_expired_witness :
    Effect.setCookie (sampleManager.deletionCookie 100) ∈
      (sampleManager.revoke sampleStore (some sampleSession) 100).snd ∧
    (sampleManager.deletionCookie 100).name = sampleManager.cookie.name ∧
    (sampleManager.deletionCookie 100).value = "" ∧
    (sampleManager.deletionCookie 100).expires =
      100 - 24 * 30 * nsPerHour ∧
    24 * nsPerHour ≤ 100 - (sampleManager.deletionCookie 100).expires :=
  ⟨by decide,
    (revocation_cookie_expired sampleManager sampleStore
        (some sampleSession) "u1" 100).1
      (sampleManager.deletionCookie 100) (by decide)⟩

end Sessionup
